import Mathlib

/-!
Shallow embedding of the backtesting engine in `src/str.py`
(class `TechnicalAnalysis` and its subclass `EMA_CrossoverStrategy`).

Prices, capital and timestamps are modelled as rationals (`ℚ`); the
price series is a `List Bar`.  The signal predicate
(`generate_signal`, overridden by subclasses) is modelled as a function
parameter, since the claims quantify over every signal predicate.
Pandas float semantics (division by zero yielding ±inf / NaN instead of
raising) are modelled by the type `PFloat` for `calculate_rsi`, which is
the only place the source relies on them.
-/

namespace TechnicalAnalysis

/-- One row of the price DataFrame: columns datetime, open, high, low,
close (volume is never read by the engine). `open` is a Lean keyword,
hence the field name `open_`. -/
structure Bar where
  datetime : ℚ
  open_ : ℚ
  high : ℚ
  low : ℚ
  close : ℚ
  deriving DecidableEq, Repr

instance : Inhabited Bar := ⟨⟨0, 0, 0, 0, 0⟩⟩

/-- `pos['direction']`: the source compares the string against `'long'`
and treats everything else as short (`else:  # short`). -/
inductive Direction where
  | long
  | short
  deriving DecidableEq, Repr

/-- `exit_reason` strings used by the source: 'TP', 'SL', 'Signal', 'End'. -/
inductive ExitReason where
  | SL
  | TP
  | Signal
  | End
  deriving DecidableEq, Repr

/-- The `self.current_position` dict set by `open_position`
(src/str.py:253-260): index, direction, entry_price, stop_loss,
take_profit, entry_time. -/
structure Position where
  index : ℕ
  direction : Direction
  entry_price : ℚ
  stop_loss : ℚ
  take_profit : ℚ
  entry_time : ℚ
  deriving DecidableEq, Repr

/-- The `Trade` dataclass (src/str.py:8-21). -/
structure Trade where
  entry_time : ℚ
  exit_time : ℚ
  direction : Direction
  entry_price : ℚ
  exit_price : ℚ
  stop_loss : ℚ
  take_profit : ℚ
  profit_loss : ℚ
  profit_loss_pct : ℚ
  exit_reason : ExitReason
  commission_paid : ℚ
  deriving DecidableEq, Repr

/-- The mutable state of a `TechnicalAnalysis` instance: the fields set
in `__init__` (src/str.py:56-65). -/
structure TAState where
  data : List Bar
  initial_capital : ℚ
  current_capital : ℚ
  commission_rate : ℚ
  trades : List Trade
  current_position : Option Position
  deriving DecidableEq, Repr

/-- `__init__` (src/str.py:41-69): stores the data and the
configuration, sets `current_capital = initial_capital`, empties the
trade list and the position.  It performs no validation of
`initial_capital` or `commission_rate`. -/
def init (data : List Bar) (initial_capital : ℚ) (commission_rate : ℚ) : TAState :=
  { data := data
    initial_capital := initial_capital
    current_capital := initial_capital
    commission_rate := commission_rate
    trades := []
    current_position := none }

/-- The error class named by the spec's §7 taxonomy.  No constructor:
nothing in src/str.py defines or raises a configuration error. -/
inductive ConfigurationError
  deriving DecidableEq

/-- `__init__` viewed as a fallible constructor, to state claims about
failure: the source body (src/str.py:41-69) contains no validation and
no raise, so it always returns the constructed state. -/
def initE (data : List Bar) (initial_capital : ℚ) (commission_rate : ℚ) :
    Except ConfigurationError TAState :=
  .ok (init data initial_capital commission_rate)

/-- `self.data.iloc[index]` on the bar list.  Inside `run_backtest` the
index is always in range, so the default is never reached there. -/
def rowAt (s : TAState) (index : ℕ) : Bar :=
  s.data.getD index default

/-- `open_position` (src/str.py:233-260): records the position dict. -/
def open_position (s : TAState) (index : ℕ) (direction : Direction)
    (entry_price stop_loss take_profit : ℚ) : TAState :=
  { s with current_position := some (
      { index := index
        direction := direction
        entry_price := entry_price
        stop_loss := stop_loss
        take_profit := take_profit
        entry_time := (rowAt s index).datetime } : Position) }

/-- `close_position` (src/str.py:262-331): returns immediately when no
position is open; otherwise computes commission, gross and net P&L,
percentage P&L, appends the `Trade`, multiplies the capital by
`1 + profit_loss_pct / 100` and clears the position. -/
def close_position (s : TAState) (index : ℕ) (exit_price : ℚ)
    (exit_reason : ExitReason) : TAState :=
  match s.current_position with
  | none => s
  | some pos =>
    let entry_price := pos.entry_price
    let commission_total := entry_price * s.commission_rate * 2
    let profit_loss_gross :=
      match pos.direction with
      | .long => exit_price - entry_price
      | .short => entry_price - exit_price
    let profit_loss_net := profit_loss_gross - commission_total
    let profit_loss_pct := profit_loss_net / entry_price * 100
    let trade : Trade :=
      { entry_time := pos.entry_time
        exit_time := (rowAt s index).datetime
        direction := pos.direction
        entry_price := entry_price
        exit_price := exit_price
        stop_loss := pos.stop_loss
        take_profit := pos.take_profit
        profit_loss := profit_loss_net
        profit_loss_pct := profit_loss_pct
        exit_reason := exit_reason
        commission_paid := commission_total }
    { s with
        current_capital := s.current_capital * (1 + profit_loss_pct / 100)
        trades := s.trades ++ [trade]
        current_position := none }

/-- `check_exit_conditions` (src/str.py:333-371): returns
`(should_exit, exit_price, exit_reason)`.  For a long position the
stop-loss test `low <= stop_loss` comes before the take-profit test
`high >= take_profit`; for a short, `high >= stop_loss` before
`low <= take_profit`. -/
def check_exit_conditions (s : TAState) (index : ℕ) :
    Bool × Option ℚ × Option ExitReason :=
  match s.current_position with
  | none => (false, none, none)
  | some pos =>
    let row := rowAt s index
    match pos.direction with
    | .long =>
      if row.low ≤ pos.stop_loss then (true, some pos.stop_loss, some .SL)
      else if row.high ≥ pos.take_profit then (true, some pos.take_profit, some .TP)
      else (false, none, none)
    | .short =>
      if row.high ≥ pos.stop_loss then (true, some pos.stop_loss, some .SL)
      else if row.low ≤ pos.take_profit then (true, some pos.take_profit, some .TP)
      else (false, none, none)

/-- The abstract `generate_signal` contract (src/str.py:377-393,
overridden in subclasses): from the state and the bar index, either no
signal or `(direction, stop_loss, take_profit)`. -/
def Signal := TAState → ℕ → Option (Direction × ℚ × ℚ)

/-- The body of the `for i in range(len(self.data))` loop of
`run_backtest` (src/str.py:418-437): skip `i < 200`; if a position is
open, check exits and on a hit close and `continue`; otherwise (or when
no exit fired) generate a signal when flat and open a position at the
bar's close.  The `getD` defaults on the exit price and reason are
unreachable: `should_exit = true` forces both options to be `some`. -/
def backtestStep (sig : Signal) (s : TAState) (i : ℕ) : TAState :=
  if i < 200 then s
  else
    let entryStep : TAState → TAState := fun s =>
      if s.current_position = none then
        match sig s i with
        | some (direction, stop_loss, take_profit) =>
          open_position s i direction (rowAt s i).close stop_loss take_profit
        | none => s
      else s
    if s.current_position ≠ none then
      let r := check_exit_conditions s i
      if r.1 then close_position s i (r.2.1.getD 0) (r.2.2.getD .SL)
      else entryStep s
    else entryStep s

/-- The first `n` iterations of the `run_backtest` loop. -/
def runLoop (sig : Signal) (s : TAState) : ℕ → TAState
  | 0 => s
  | n + 1 => backtestStep sig (runLoop sig s n) n

/-- `run_backtest` (src/str.py:399-445): run the loop over all bars,
then force-close any remaining open position at the last bar's close
with reason 'End'. -/
def run_backtest (sig : Signal) (s : TAState) : TAState :=
  let s' := runLoop sig s s.data.length
  match s'.current_position with
  | some _ =>
    let last_index := s'.data.length - 1
    close_position s' last_index (rowAt s' last_index).close .End
  | none => s'

/-!  ## RSI: pandas float semantics

`calculate_rsi` (src/str.py:97-137) divides `avg_gain / avg_loss` on
pandas Series backed by IEEE floats: division by zero does not raise
but yields `inf` (positive numerator), `-inf` (negative numerator) or
`NaN` (`0/0`).  `PFloat` is a rational-valued float model with those
special values, and the arithmetic below follows the IEEE rules for the
operations the source performs. -/

inductive PFloat where
  | num (q : ℚ)
  | inf
  | negInf
  | nan
  deriving DecidableEq, Repr

/-- IEEE negation on the float model. -/
def PFloat.neg : PFloat → PFloat
  | .num q => .num (-q)
  | .inf => .negInf
  | .negInf => .inf
  | .nan => .nan

/-- IEEE addition on the float model (NaN propagates; inf + -inf = NaN). -/
def PFloat.add : PFloat → PFloat → PFloat
  | .nan, _ => .nan
  | _, .nan => .nan
  | .inf, .negInf => .nan
  | .negInf, .inf => .nan
  | .inf, _ => .inf
  | _, .inf => .inf
  | .negInf, _ => .negInf
  | _, .negInf => .negInf
  | .num a, .num b => .num (a + b)

/-- IEEE subtraction on the float model. -/
def PFloat.sub (a b : PFloat) : PFloat := a.add b.neg

/-- IEEE division on the float model: finite/±inf is 0 (signed zeros
collapsed to 0, which no later operation of the source distinguishes),
x/0 is ±inf by the sign of x and NaN for 0/0, inf/inf is NaN. -/
def PFloat.div : PFloat → PFloat → PFloat
  | .nan, _ => .nan
  | _, .nan => .nan
  | .inf, .inf => .nan
  | .inf, .negInf => .nan
  | .negInf, .inf => .nan
  | .negInf, .negInf => .nan
  | .inf, .num b => if b < 0 then .negInf else .inf
  | .negInf, .num b => if b < 0 then .inf else .negInf
  | .num _, .inf => .num 0
  | .num _, .negInf => .num 0
  | .num a, .num b =>
    if b = 0 then
      if 0 < a then .inf else if a < 0 then .negInf else .nan
    else .num (a / b)

/-- One step of `ewm(span=period, adjust=False).mean()` after the seed:
`y[i] = (1-α)·y[i-1] + α·x[i]` with `α = 2/(span+1)`. -/
def ewmFrom (α : ℚ) (prev : ℚ) : List ℚ → List ℚ
  | [] => []
  | x :: xs =>
    let y := (1 - α) * prev + α * x
    y :: ewmFrom α y xs

/-- `Series.ewm(span=period, adjust=False).mean()` on an all-finite
series: seeded with the first element. -/
def ewmMean (span : ℕ) : List ℚ → List ℚ
  | [] => []
  | x :: xs => x :: ewmFrom (2 / ((span : ℚ) + 1)) x xs

/-- `gain = delta.where(delta > 0, 0)` where `delta = prices.diff()`
(src/str.py:121-124).  `delta[0]` is NaN and `NaN > 0` is false, so
`gain[0] = 0`; every later entry is finite. -/
def rsiGain (prices : List ℚ) : List ℚ :=
  (List.range prices.length).map fun i =>
    match i with
    | 0 => 0
    | j + 1 =>
      let d := prices.getD (j + 1) 0 - prices.getD j 0
      if 0 < d then d else 0

/-- `loss = -delta.where(delta < 0, 0)` (src/str.py:125): `loss[0] = -0 = 0`. -/
def rsiLoss (prices : List ℚ) : List ℚ :=
  (List.range prices.length).map fun i =>
    match i with
    | 0 => 0
    | j + 1 =>
      let d := prices.getD (j + 1) 0 - prices.getD j 0
      Neg.neg (if d < 0 then d else 0)

/-- `avg_gain = gain.ewm(span=period, adjust=False).mean()` (src/str.py:128). -/
def rsiAvgGain (prices : List ℚ) (period : ℕ) : List ℚ :=
  ewmMean period (rsiGain prices)

/-- `avg_loss = loss.ewm(span=period, adjust=False).mean()` (src/str.py:129). -/
def rsiAvgLoss (prices : List ℚ) (period : ℕ) : List ℚ :=
  ewmMean period (rsiLoss prices)

/-- `rsi = 100 - (100 / (1 + avg_gain/avg_loss))` pointwise, in float
semantics (src/str.py:132-137). -/
def rsiPoint (g l : ℚ) : PFloat :=
  let rs := PFloat.div (.num g) (.num l)
  PFloat.sub (.num 100) (PFloat.div (.num 100) (PFloat.add (.num 1) rs))

/-- `calculate_rsi` (src/str.py:97-137) on the close-price list. -/
def calculate_rsi (prices : List ℚ) (period : ℕ) : List PFloat :=
  List.zipWith rsiPoint (rsiAvgGain prices period) (rsiAvgLoss prices period)

/-!  ## Statistics -/

/-- The dict returned by `calculate_statistics` (src/str.py:451-515). -/
structure Stats where
  total_trades : ℕ
  winning_trades : ℕ
  losing_trades : ℕ
  win_rate : ℚ
  total_profit_loss : ℚ
  total_profit_loss_pct : ℚ
  total_commission_paid : ℚ
  avg_profit : ℚ
  avg_loss : ℚ
  profit_factor : ℚ
  max_drawdown : ℚ
  final_capital : ℚ
  deriving DecidableEq, Repr

/-- The tail of `capital_curve` (src/str.py:489-491): each trade
multiplies the previous point by `1 + profit_loss_pct/100`. -/
def capitalCurveAux (c : ℚ) : List Trade → List ℚ
  | [] => []
  | t :: ts =>
    let c' := c * (1 + t.profit_loss_pct / 100)
    c' :: capitalCurveAux c' ts

/-- `capital_curve`, starting at `initial_capital` (src/str.py:489-491). -/
def capitalCurve (initial : ℚ) (trades : List Trade) : List ℚ :=
  initial :: capitalCurveAux initial trades

/-- The peak/drawdown loop (src/str.py:493-500).  The division by
`peak` follows the ℚ convention `x/0 = 0`; with a positive
`initial_capital` every peak is reached only at positive curve points
in the claims below. -/
def maxDrawdownLoop : List ℚ → ℚ → ℚ → ℚ
  | [], _, md => md
  | v :: rest, peak, md =>
    let peak' := if v > peak then v else peak
    let dd := (peak' - v) / peak' * 100
    let md' := if dd > md then dd else md
    maxDrawdownLoop rest peak' md'

/-- `total_loss = abs(sum(t.profit_loss for t in losing_trades))`
(src/str.py:480-483), named so claims can refer to it. -/
def statTotalLoss (trades : List Trade) : ℚ :=
  |((trades.filter (fun t => t.profit_loss ≤ 0)).map Trade.profit_loss).sum|

/-- `calculate_statistics` (src/str.py:451-515): zero/neutral defaults
for an empty trade list, otherwise the win/loss partition, commission
total, drawdown loop and guarded ratios of the source. -/
def calculate_statistics (s : TAState) : Stats :=
  if s.trades = [] then
    { total_trades := 0
      winning_trades := 0
      losing_trades := 0
      win_rate := 0
      total_profit_loss := 0
      total_profit_loss_pct := 0
      total_commission_paid := 0
      avg_profit := 0
      avg_loss := 0
      profit_factor := 0
      max_drawdown := 0
      final_capital := s.initial_capital }
  else
    let winning_trades := s.trades.filter (fun t => 0 < t.profit_loss)
    let losing_trades := s.trades.filter (fun t => t.profit_loss ≤ 0)
    let total_profit := (winning_trades.map Trade.profit_loss).sum
    let total_loss := statTotalLoss s.trades
    let total_commission := (s.trades.map Trade.commission_paid).sum
    let curve := capitalCurve s.initial_capital s.trades
    let max_drawdown := maxDrawdownLoop curve (curve.headD 0) 0
    { total_trades := s.trades.length
      winning_trades := winning_trades.length
      losing_trades := losing_trades.length
      win_rate := if s.trades ≠ [] then (winning_trades.length : ℚ) / s.trades.length * 100 else 0
      total_profit_loss := (s.trades.map Trade.profit_loss).sum
      total_profit_loss_pct := (s.current_capital - s.initial_capital) / s.initial_capital * 100
      total_commission_paid := total_commission
      avg_profit := if winning_trades ≠ [] then total_profit / winning_trades.length else 0
      avg_loss := if losing_trades ≠ [] then total_loss / losing_trades.length else 0
      profit_factor := if 0 < total_loss then total_profit / total_loss else 0
      max_drawdown := max_drawdown
      final_capital := s.current_capital }

/-!  ## Helper lemmas -/

/-- `close_position` either leaves the state unchanged (no position) or
clears the position. -/
theorem close_position_current_position (s : TAState) (i : ℕ) (ep : ℚ)
    (er : ExitReason) :
    (close_position s i ep er).current_position = s.current_position ∨
    (close_position s i ep er).current_position = none := by
  cases hp : s.current_position with
  | none => left; simp [close_position, hp]
  | some pos => right; simp [close_position, hp]

/-- With a position open, `close_position` always clears it. -/
theorem close_position_pos_none (s : TAState) (i : ℕ) (ep : ℚ)
    (er : ExitReason) (h : s.current_position ≠ none) :
    (close_position s i ep er).current_position = none := by
  cases hp : s.current_position with
  | none => exact absurd hp h
  | some pos => simp [close_position, hp]

/-- `close_position` never changes `initial_capital`. -/
theorem close_position_initial_capital (s : TAState) (i : ℕ) (ep : ℚ)
    (er : ExitReason) :
    (close_position s i ep er).initial_capital = s.initial_capital := by
  cases hp : s.current_position with
  | none => simp [close_position, hp]
  | some pos => simp [close_position, hp]

/-- `open_position` changes only `current_position`. -/
theorem open_position_fields (s : TAState) (i : ℕ) (dir : Direction)
    (ep sl tp : ℚ) :
    (open_position s i dir ep sl tp).current_capital = s.current_capital ∧
    (open_position s i dir ep sl tp).initial_capital = s.initial_capital ∧
    (open_position s i dir ep sl tp).trades = s.trades := by
  exact ⟨rfl, rfl, rfl⟩

/-- Below the warm-up threshold the loop body does nothing at all:
no exit check and no entry check (src/str.py:420-421). -/
theorem backtestStep_lt_200 (sig : Signal) (s : TAState) (i : ℕ)
    (h : i < 200) : backtestStep sig s i = s := by
  simp [backtestStep, h]

/-- Exhaustive description of one loop iteration: it is the identity,
or (past warm-up, position open, exit fired) a `close_position`, or
(past warm-up, flat, signal fired) an `open_position` at the bar's
close price. -/
theorem backtestStep_cases (sig : Signal) (s : TAState) (i : ℕ) :
    backtestStep sig s i = s ∨
    (¬ i < 200 ∧ s.current_position ≠ none ∧
      (check_exit_conditions s i).1 = true ∧
      backtestStep sig s i =
        close_position s i ((check_exit_conditions s i).2.1.getD 0)
          ((check_exit_conditions s i).2.2.getD .SL)) ∨
    (¬ i < 200 ∧ s.current_position = none ∧
      ∃ dir sl tp, sig s i = some (dir, sl, tp) ∧
        backtestStep sig s i = open_position s i dir (rowAt s i).close sl tp) := by
  by_cases h1 : i < 200
  · left; exact backtestStep_lt_200 sig s i h1
  · by_cases h2 : s.current_position = none
    · cases hs : sig s i with
      | none => left; simp [backtestStep, h1, h2, hs]
      | some v =>
        right; right
        obtain ⟨dir, sl, tp⟩ := v
        refine ⟨h1, h2, dir, sl, tp, rfl, ?_⟩
        simp [backtestStep, h1, h2, hs]
    · by_cases h3 : (check_exit_conditions s i).1 = true
      · right; left
        exact ⟨h1, h2, h3, by simp [backtestStep, h1, h2, h3]⟩
      · left; simp [backtestStep, h1, h2, h3]

/-- The capital bookkeeping invariant of the engine: the current
capital is the initial capital times the product of the per-trade
growth factors `1 + profit_loss_pct/100` (src/str.py:325). -/
def CapInv (s : TAState) : Prop :=
  s.current_capital =
    s.initial_capital * (s.trades.map (fun t => 1 + t.profit_loss_pct / 100)).prod

theorem capInv_init (d : List Bar) (c r : ℚ) : CapInv (init d c r) := by
  simp [CapInv, init]

theorem capInv_close (s : TAState) (i : ℕ) (ep : ℚ) (er : ExitReason)
    (h : CapInv s) : CapInv (close_position s i ep er) := by
  cases hp : s.current_position with
  | none => simpa [close_position, hp] using h
  | some pos =>
    unfold CapInv at h ⊢
    simp only [close_position, hp, List.map_append, List.prod_append,
      List.map_cons, List.prod_cons, List.map_nil, List.prod_nil, mul_one]
    rw [h]; ring

theorem capInv_open (s : TAState) (i : ℕ) (dir : Direction) (ep sl tp : ℚ)
    (h : CapInv s) : CapInv (open_position s i dir ep sl tp) := h

theorem capInv_step (sig : Signal) (s : TAState) (i : ℕ) (h : CapInv s) :
    CapInv (backtestStep sig s i) := by
  rcases backtestStep_cases sig s i with heq | ⟨_, _, _, heq⟩ | ⟨_, _, d, sl, tp, _, heq⟩
  · rwa [heq]
  · rw [heq]; exact capInv_close _ _ _ _ h
  · rw [heq]; exact capInv_open _ _ _ _ _ _ h

theorem capInv_runLoop (sig : Signal) (s : TAState) (n : ℕ) (h : CapInv s) :
    CapInv (runLoop sig s n) := by
  induction n with
  | zero => exact h
  | succ n ih => exact capInv_step sig _ n ih

theorem capInv_run_backtest (sig : Signal) (s : TAState) (h : CapInv s) :
    CapInv (run_backtest sig s) := by
  unfold run_backtest
  have h' := capInv_runLoop sig s s.data.length h
  cases hp : (runLoop sig s s.data.length).current_position with
  | none => simpa [hp] using h'
  | some pos =>
    simp only [hp]
    exact capInv_close _ _ _ _ h'

theorem initial_capital_step (sig : Signal) (s : TAState) (i : ℕ) :
    (backtestStep sig s i).initial_capital = s.initial_capital := by
  rcases backtestStep_cases sig s i with heq | ⟨_, _, _, heq⟩ | ⟨_, _, d, sl, tp, _, heq⟩
  · rw [heq]
  · rw [heq]; exact close_position_initial_capital _ _ _ _
  · rw [heq]; rfl

theorem initial_capital_runLoop (sig : Signal) (s : TAState) (n : ℕ) :
    (runLoop sig s n).initial_capital = s.initial_capital := by
  induction n with
  | zero => rfl
  | succ n ih => rw [runLoop, initial_capital_step, ih]

theorem initial_capital_run_backtest (sig : Signal) (s : TAState) :
    (run_backtest sig s).initial_capital = s.initial_capital := by
  unfold run_backtest
  cases hp : (runLoop sig s s.data.length).current_position with
  | none => simp [hp, initial_capital_runLoop]
  | some pos =>
    simp only [hp]
    rw [close_position_initial_capital, initial_capital_runLoop]

/-- The warm-up invariant on the position: any open position was opened
at a bar index at or past the warm-up threshold. -/
def PosIdxInv (s : TAState) : Prop :=
  ∀ p, s.current_position = some p → 200 ≤ p.index

theorem posIdxInv_init (d : List Bar) (c r : ℚ) : PosIdxInv (init d c r) := by
  intro p hp
  simp [init] at hp

theorem posIdxInv_step (sig : Signal) (s : TAState) (i : ℕ)
    (h : PosIdxInv s) : PosIdxInv (backtestStep sig s i) := by
  rcases backtestStep_cases sig s i with heq | ⟨_, hne, _, heq⟩ |
      ⟨hi, _, dir, sl, tp, _, heq⟩
  · rwa [heq]
  · intro p hp
    rw [heq, close_position_pos_none s i _ _ hne] at hp
    exact absurd hp (by simp)
  · intro p hp
    rw [heq] at hp
    simp only [open_position, Option.some.injEq] at hp
    rw [← hp]
    exact Nat.le_of_not_lt hi

theorem posIdxInv_runLoop (sig : Signal) (s : TAState) (n : ℕ)
    (h : PosIdxInv s) : PosIdxInv (runLoop sig s n) := by
  induction n with
  | zero => exact h
  | succ n ih => exact posIdxInv_step sig _ n ih

/-- If every loop index is below the warm-up threshold, the loop is the
identity. -/
theorem runLoop_id_of_le_200 (sig : Signal) (s : TAState) (n : ℕ)
    (h : n ≤ 200) : runLoop sig s n = s := by
  induction n with
  | zero => rfl
  | succ n ih =>
    rw [runLoop, ih (Nat.le_of_succ_le h),
      backtestStep_lt_200 sig s n (Nat.lt_of_lt_of_le (Nat.lt_succ_self n) h)]

/-!  ## Concrete sample data for witnesses -/

/-- A concrete bar: low 4, high 30, close 10. -/
def sampleBar : Bar := ⟨0, 10, 30, 4, 10⟩

/-- A concrete state holding a long position with stop 5 and target 20.
On `sampleBar` both exit levels are touched in the same bar
(low 4 ≤ 5 and high 30 ≥ 20). -/
def sampleLongState : TAState :=
  { data := [sampleBar]
    initial_capital := 100
    current_capital := 100
    commission_rate := 1 / 100
    trades := []
    current_position := some ⟨0, .long, 10, 5, 20, 0⟩ }

/-- A concrete flat state. -/
def sampleFlatState : TAState := init [sampleBar] 100 (1 / 100)

/-- A concrete winning trade (positive net P&L). -/
def sampleWinTrade : Trade :=
  ⟨0, 0, .long, 10, 20, 5, 20, 49 / 5, 98, .TP, 1 / 5⟩

/-- A concrete state with one winning trade and hence zero summed
losses. -/
def sampleWinState : TAState :=
  { data := [sampleBar]
    initial_capital := 100
    current_capital := 198
    commission_rate := 1 / 100
    trades := [sampleWinTrade]
    current_position := none }

/-!  ## Claim theorems -/

/-- C1: on a bar whose range satisfies both exits simultaneously
(long: low ≤ stop_loss and high ≥ take_profit; mirrored for short),
`check_exit_conditions` reports exit at the stop-loss price with reason
SL, never TP: the stop-loss test precedes the take-profit test in both
directions (src/str.py:353-369). -/
theorem check_exit_sl_priority (s : TAState) (i : ℕ) (pos : Position)
    (h : s.current_position = some pos) :
    (pos.direction = .long →
      (rowAt s i).low ≤ pos.stop_loss → pos.take_profit ≤ (rowAt s i).high →
      check_exit_conditions s i = (true, some pos.stop_loss, some .SL)) ∧
    (pos.direction = .short →
      pos.stop_loss ≤ (rowAt s i).high → (rowAt s i).low ≤ pos.take_profit →
      check_exit_conditions s i = (true, some pos.stop_loss, some .SL)) := by
  constructor
  · intro hd h1 _
    simp [check_exit_conditions, h, hd, h1]
  · intro hd h1 _
    simp [check_exit_conditions, h, hd, h1]

theorem check_exit_sl_priority_witness :
    check_exit_conditions sampleLongState 0 = (true, some 5, some .SL) := by
  have h := check_exit_sl_priority sampleLongState 0 ⟨0, .long, 10, 5, 20, 0⟩ rfl
  exact h.1 rfl (by decide) (by decide)

/-- C2: every trade recorded by `close_position` carries commission
`entry_price × commission_rate × 2`, net P&L equal to the gross P&L
(exit − entry for long, entry − exit for short) minus that commission,
and percentage P&L `profit_loss / entry_price × 100`
(src/str.py:293-321). -/
theorem close_position_trade_accounting (s : TAState) (i : ℕ) (ep : ℚ)
    (er : ExitReason) (pos : Position) (h : s.current_position = some pos) :
    ∃ t, (close_position s i ep er).trades = s.trades ++ [t] ∧
      t.commission_paid = pos.entry_price * s.commission_rate * 2 ∧
      t.profit_loss =
        (match pos.direction with
          | .long => ep - pos.entry_price
          | .short => pos.entry_price - ep) - t.commission_paid ∧
      t.profit_loss_pct = t.profit_loss / pos.entry_price * 100 := by
  refine ⟨{ entry_time := pos.entry_time
            exit_time := (rowAt s i).datetime
            direction := pos.direction
            entry_price := pos.entry_price
            exit_price := ep
            stop_loss := pos.stop_loss
            take_profit := pos.take_profit
            profit_loss := (match pos.direction with
              | .long => ep - pos.entry_price
              | .short => pos.entry_price - ep) -
                pos.entry_price * s.commission_rate * 2
            profit_loss_pct := ((match pos.direction with
              | .long => ep - pos.entry_price
              | .short => pos.entry_price - ep) -
                pos.entry_price * s.commission_rate * 2) /
                pos.entry_price * 100
            exit_reason := er
            commission_paid := pos.entry_price * s.commission_rate * 2 },
    ?_, rfl, rfl, rfl⟩
  simp [close_position, h]

theorem close_position_trade_accounting_witness :
    ∃ t, (close_position sampleLongState 0 20 .TP).trades = [] ++ [t] ∧
      t.commission_paid = (1 : ℚ) / 5 ∧
      t.profit_loss = (49 : ℚ) / 5 ∧
      t.profit_loss_pct = 98 := by
  obtain ⟨t, h1, h2, h3, h4⟩ :=
    close_position_trade_accounting sampleLongState 0 20 .TP
      ⟨0, .long, 10, 5, 20, 0⟩ rfl
  refine ⟨t, h1, ?_, ?_, ?_⟩
  · rw [h2]; norm_num [sampleLongState]
  · rw [h3, h2]; norm_num [sampleLongState]
  · rw [h4, h3, h2]; norm_num [sampleLongState]

/-- C9: with an empty trade list `calculate_statistics` returns the
zero/neutral default for every metric and `final_capital =
initial_capital`, performing no division at all (the result is a
literal record, src/str.py:462-476); and `profit_factor` is 0 whenever
the summed losses are zero, also for a non-empty trade list
(src/str.py:512). -/
theorem statistics_empty_and_zero_loss :
    (∀ s : TAState, s.trades = [] →
      calculate_statistics s =
        { total_trades := 0, winning_trades := 0, losing_trades := 0,
          win_rate := 0, total_profit_loss := 0, total_profit_loss_pct := 0,
          total_commission_paid := 0, avg_profit := 0, avg_loss := 0,
          profit_factor := 0, max_drawdown := 0,
          final_capital := s.initial_capital }) ∧
    (∀ s : TAState, statTotalLoss s.trades = 0 →
      (calculate_statistics s).profit_factor = 0) := by
  constructor
  · intro s h
    simp [calculate_statistics, h]
  · intro s h
    by_cases ht : s.trades = []
    · simp [calculate_statistics, ht]
    · simp [calculate_statistics, ht, h]

theorem statistics_empty_and_zero_loss_witness :
    calculate_statistics sampleFlatState =
      { total_trades := 0, winning_trades := 0, losing_trades := 0,
        win_rate := 0, total_profit_loss := 0, total_profit_loss_pct := 0,
        total_commission_paid := 0, avg_profit := 0, avg_loss := 0,
        profit_factor := 0, max_drawdown := 0, final_capital := 100 } ∧
    (calculate_statistics sampleWinState).profit_factor = 0 := by
  constructor
  · exact statistics_empty_and_zero_loss.1 sampleFlatState rfl
  · refine statistics_empty_and_zero_loss.2 sampleWinState ?_
    norm_num [statTotalLoss, sampleWinState, sampleWinTrade]

/-- C10: calling `close_position` with no open position is a silent
no-op: it returns the state unchanged — no raise, no recorded trade, no
change to the trades list, capital or position (src/str.py:286-287). -/
theorem close_position_none_noop (s : TAState) (i : ℕ) (ep : ℚ)
    (er : ExitReason) (h : s.current_position = none) :
    close_position s i ep er = s := by
  simp [close_position, h]

theorem close_position_none_noop_witness :
    close_position sampleFlatState 3 20 .TP = sampleFlatState :=
  close_position_none_noop sampleFlatState 3 20 .TP rfl

/-- The trade produced by closing `sampleLongState` at exit price 20:
commission 10·(1/100)·2 = 1/5, net P&L 10 − 1/5 = 49/5, percentage
(49/5)/10·100 = 98. -/
def sampleClosedTrade : Trade :=
  ⟨0, 0, .long, 10, 20, 5, 20, 49 / 5, 98, .TP, 1 / 5⟩

/-- A state past warm-up: 201 bars, long position opened at index 200.
On `sampleBar` its stop 5 and target 20 are both touched. -/
def sampleLongState201 : TAState :=
  { data := List.replicate 201 sampleBar
    initial_capital := 100
    current_capital := 100
    commission_rate := 1 / 100
    trades := []
    current_position := some ⟨200, .long, 10, 5, 20, 0⟩ }

/-- C3: after any run of the backtest from a fresh state, the current
capital equals the initial capital times the product of
`1 + profit_loss_pct/100` over all recorded trades in order; each
`close_position` on an open position multiplies the capital by exactly
that factor of the trade it records; and `open_position` changes
neither capital nor trades — nothing but `close_position` touches
capital (src/str.py:324-325). -/
theorem capital_product_conservation :
    (∀ (sig : Signal) (d : List Bar) (c r : ℚ),
      (run_backtest sig (init d c r)).current_capital =
        c * ((run_backtest sig (init d c r)).trades.map
          (fun t => 1 + t.profit_loss_pct / 100)).prod) ∧
    (∀ (s : TAState) (i : ℕ) (ep : ℚ) (er : ExitReason),
      s.current_position ≠ none →
      ∃ t, (close_position s i ep er).trades = s.trades ++ [t] ∧
        (close_position s i ep er).current_capital =
          s.current_capital * (1 + t.profit_loss_pct / 100)) ∧
    (∀ (s : TAState) (i : ℕ) (dir : Direction) (ep sl tp : ℚ),
      (open_position s i dir ep sl tp).current_capital = s.current_capital ∧
      (open_position s i dir ep sl tp).trades = s.trades) := by
  refine ⟨?_, ?_, ?_⟩
  · intro sig d c r
    have h := capInv_run_backtest sig (init d c r) (capInv_init d c r)
    unfold CapInv at h
    rwa [initial_capital_run_backtest] at h
  · intro s i ep er h
    cases hp : s.current_position with
    | none => exact absurd hp h
    | some pos =>
      refine ⟨{ entry_time := pos.entry_time
                exit_time := (rowAt s i).datetime
                direction := pos.direction
                entry_price := pos.entry_price
                exit_price := ep
                stop_loss := pos.stop_loss
                take_profit := pos.take_profit
                profit_loss := (match pos.direction with
                  | .long => ep - pos.entry_price
                  | .short => pos.entry_price - ep) -
                    pos.entry_price * s.commission_rate * 2
                profit_loss_pct := ((match pos.direction with
                  | .long => ep - pos.entry_price
                  | .short => pos.entry_price - ep) -
                    pos.entry_price * s.commission_rate * 2) /
                    pos.entry_price * 100
                exit_reason := er
                commission_paid := pos.entry_price * s.commission_rate * 2 },
        ?_, ?_⟩ <;> simp [close_position, hp]
  · intro s i dir ep sl tp
    exact ⟨rfl, rfl⟩

theorem capital_product_conservation_witness :
    (run_backtest (fun _ _ => none) (init [sampleBar] 100 (1 / 100))).current_capital =
      100 * ((run_backtest (fun _ _ => none)
        (init [sampleBar] 100 (1 / 100))).trades.map
          (fun t => 1 + t.profit_loss_pct / 100)).prod ∧
    (close_position sampleLongState 0 20 .TP).current_capital =
      100 * (1 + 98 / 100) := by
  constructor
  · exact capital_product_conservation.1 (fun _ _ => none) [sampleBar] 100 (1 / 100)
  · obtain ⟨t, h1, h2⟩ :=
      capital_product_conservation.2.1 sampleLongState 0 20 .TP (by decide)
    have ht : t = sampleClosedTrade := by
      have h5 : (close_position sampleLongState 0 20 .TP).trades =
          [] ++ [sampleClosedTrade] := by
        norm_num [close_position, sampleLongState, sampleClosedTrade, rowAt, sampleBar]
      rw [h1] at h5
      simpa [sampleLongState] using h5
    rw [ht] at h2
    exact h2

/-- C4: a position present after a loop iteration was either already
present before it or was opened from the flat state: `open_position` is
never invoked while `current_position` is non-None.  `backtestStep` is
the whole per-bar loop body, so quantifying over every state covers
every iteration of every execution of `run_backtest`
(src/str.py:431-437: entry is guarded by `current_position is None`). -/
theorem position_opened_only_from_flat :
    ∀ (sig : Signal) (s : TAState) (i : ℕ) (p : Position),
      (backtestStep sig s i).current_position = some p →
      s.current_position = none ∨ s.current_position = some p := by
  intro sig s i p hp
  rcases backtestStep_cases sig s i with heq | ⟨_, hne, _, heq⟩ |
      ⟨_, hnone, _, _, _, _, heq⟩
  · right; rwa [heq] at hp
  · rw [heq, close_position_pos_none s i _ _ hne] at hp
    exact absurd hp (by simp)
  · left; exact hnone

theorem position_opened_only_from_flat_witness :
    sampleLongState.current_position = none ∨
    sampleLongState.current_position = some ⟨0, .long, 10, 5, 20, 0⟩ :=
  position_opened_only_from_flat (fun _ _ => none) sampleLongState 0
    ⟨0, .long, 10, 5, 20, 0⟩ (by decide)

/-- C5: bars below the warm-up threshold of 200 get neither an exit
check nor an entry check (the loop body is the identity there,
src/str.py:420-421); one iteration preserves the invariant that any
open position was opened at index ≥ 200; and in any run from a fresh
state, after any number of iterations, any open position has index
≥ 200 — so no position (hence no trade) is ever entered below the
warm-up threshold. -/
theorem warmup_skip :
    (∀ (sig : Signal) (s : TAState) (i : ℕ), i < 200 → backtestStep sig s i = s) ∧
    (∀ (sig : Signal) (s : TAState) (i : ℕ),
      (∀ p, s.current_position = some p → 200 ≤ p.index) →
      ∀ p, (backtestStep sig s i).current_position = some p → 200 ≤ p.index) ∧
    (∀ (sig : Signal) (d : List Bar) (c r : ℚ) (n : ℕ) (p : Position),
      (runLoop sig (init d c r) n).current_position = some p → 200 ≤ p.index) := by
  refine ⟨backtestStep_lt_200, ?_, ?_⟩
  · intro sig s i h
    exact posIdxInv_step sig s i h
  · intro sig d c r n p hp
    exact posIdxInv_runLoop sig (init d c r) n (posIdxInv_init d c r) p hp

set_option maxRecDepth 10000 in
theorem warmup_skip_witness :
    backtestStep (fun _ _ => none) sampleFlatState 5 = sampleFlatState ∧
    200 ≤ (⟨200, Direction.long, 10, 5, 20, 0⟩ : Position).index := by
  constructor
  · exact warmup_skip.1 (fun _ _ => none) sampleFlatState 5 (by decide)
  · exact warmup_skip.2.2 (fun _ _ => some (.long, 5, 20))
      (List.replicate 201 sampleBar) 100 0 201 ⟨200, .long, 10, 5, 20, 0⟩
      (by decide)

/-- C6: when an open position's exit condition fires on a bar past
warm-up, the loop body is exactly the `close_position` call — it is
independent of the signal predicate (the predicate is not evaluated),
opens nothing, and leaves the state flat; the `continue` advances to
the next bar (src/str.py:423-429). -/
theorem exit_close_excludes_entry :
    ∀ (sig sig' : Signal) (s : TAState) (i : ℕ) (ep : ℚ) (er : ExitReason),
      ¬ i < 200 → s.current_position ≠ none →
      check_exit_conditions s i = (true, some ep, some er) →
      backtestStep sig s i = close_position s i ep er ∧
      backtestStep sig s i = backtestStep sig' s i ∧
      (backtestStep sig s i).current_position = none := by
  intro sig sig' s i ep er hi hpos hex
  have hstep : ∀ sg : Signal, backtestStep sg s i = close_position s i ep er := by
    intro sg
    simp [backtestStep, hi, hpos, hex]
  refine ⟨hstep sig, (hstep sig).trans (hstep sig').symm, ?_⟩
  rw [hstep sig]
  exact close_position_pos_none s i ep er hpos

theorem exit_close_excludes_entry_witness :
    backtestStep (fun _ _ => none) sampleLongState201 200 =
      close_position sampleLongState201 200 5 .SL ∧
    backtestStep (fun _ _ => none) sampleLongState201 200 =
      backtestStep (fun _ _ => some (.short, 7, 9)) sampleLongState201 200 ∧
    (backtestStep (fun _ _ => none) sampleLongState201 200).current_position =
      none := by
  have h := exit_close_excludes_entry (fun _ _ => none)
    (fun _ _ => some (.short, 7, 9)) sampleLongState201 200 5 .SL
    (by decide) (by decide) (by decide)
  exact h

/-- C7 (amended): the constructor performs no validation at all — it
succeeds for every `initial_capital` and `commission_rate`, raising no
configuration error — and running with a warm-up longer than the series
length is not an error either: the loop skips every bar and the run
returns the state unchanged with zero trades (src/str.py:41-69 contain
no checks; src/str.py:420-421 skip all bars of a short series). -/
theorem init_no_validation :
    ∀ (d : List Bar) (c r : ℚ),
      initE d c r = .ok (init d c r) ∧
      ∀ sig : Signal, d.length ≤ 200 →
        run_backtest sig (init d c r) = init d c r := by
  intro d c r
  refine ⟨rfl, ?_⟩
  intro sig h
  have h1 : runLoop sig (init d c r) (init d c r).data.length = init d c r :=
    runLoop_id_of_le_200 sig (init d c r) d.length h
  simp only [run_backtest, h1]
  rfl

theorem init_no_validation_witness :
    initE [sampleBar] (-5) (-(1 / 100)) =
      .ok (init [sampleBar] (-5) (-(1 / 100))) ∧
    run_backtest (fun _ _ => none) (init [sampleBar] (-5) (-(1 / 100))) =
      init [sampleBar] (-5) (-(1 / 100)) := by
  have h := init_no_validation [sampleBar] (-5) (-(1 / 100))
  exact ⟨h.1, h.2 (fun _ _ => none) (by decide)⟩

/-- C7 counterexample: the claim "constructing the analyzer with a
non-positive initial_capital or a negative commission_rate, or running
it with a warm-up longer than the series length, fails fast with a
configuration error" is false: construction with capital −5 and
commission −1/100 returns `.ok`, and a 10-bar run (shorter than the
200-bar warm-up) completes normally, unchanged and without error. -/
theorem no_configuration_error_counterexample :
    initE [sampleBar] (-5) (-(1 / 100)) =
      .ok (init [sampleBar] (-5) (-(1 / 100))) ∧
    run_backtest (fun _ _ => none) (init (List.replicate 10 sampleBar) (-5) 0) =
      init (List.replicate 10 sampleBar) (-5) 0 := by
  exact ⟨rfl, by decide⟩

theorem ewmFrom_length (a p : ℚ) (xs : List ℚ) :
    (ewmFrom a p xs).length = xs.length := by
  induction xs generalizing p with
  | nil => rfl
  | cons x xs ih => simp [ewmFrom, ih]

theorem ewmMean_length (span : ℕ) (xs : List ℚ) :
    (ewmMean span xs).length = xs.length := by
  cases xs with
  | nil => rfl
  | cons x xs => simp [ewmMean, ewmFrom_length]

theorem rsiGain_length (prices : List ℚ) :
    (rsiGain prices).length = prices.length := by
  simp [rsiGain]

theorem rsiLoss_length (prices : List ℚ) :
    (rsiLoss prices).length = prices.length := by
  simp [rsiLoss]

theorem calculate_rsi_saturation :
    ∀ (prices : List ℚ) (period : ℕ),
      (calculate_rsi prices period).length = prices.length ∧
      ∀ (i : ℕ) (g l : ℚ),
        (rsiAvgGain prices period).get? i = some g →
        (rsiAvgLoss prices period).get? i = some l →
        l = 0 →
        ((0 < g → (calculate_rsi prices period).get? i = some (.num 100)) ∧
         (g = 0 → (calculate_rsi prices period).get? i = some .nan)) := by
  intro prices period
  constructor
  · simp [calculate_rsi, List.length_zipWith, rsiAvgGain, rsiAvgLoss,
      ewmMean_length, rsiGain_length, rsiLoss_length]
  · intro i g l hg hl hl0
    have hz : (calculate_rsi prices period).get? i = some (rsiPoint g l) :=
      (List.get?_zipWith_eq_some rsiPoint _ _ _ i).mpr ⟨g, l, hg, hl, rfl⟩
    subst hl0
    constructor
    · intro hgpos
      rw [hz]
      have hpt : rsiPoint g 0 = .num 100 := by
        simp [rsiPoint, PFloat.div, PFloat.add, PFloat.sub, PFloat.neg, hgpos]
      rw [hpt]
    · intro hg0
      subst hg0
      rw [hz]
      have hpt : rsiPoint 0 0 = PFloat.nan := by
        simp [rsiPoint, PFloat.div, PFloat.add, PFloat.sub, PFloat.neg]
      rw [hpt]

theorem calculate_rsi_saturation_witness :
    (calculate_rsi [1, 2] 14).length = 2 ∧
    (calculate_rsi [1, 2] 14).get? 1 = some (PFloat.num 100) := by
  have h := calculate_rsi_saturation [1, 2] 14
  refine ⟨h.1, ?_⟩
  have hg : (rsiAvgGain [1, 2] 14).get? 1 = some (2 / 15) := by
    norm_num [rsiAvgGain, rsiGain, ewmMean, ewmFrom, List.range_succ]
  have hl : (rsiAvgLoss [1, 2] 14).get? 1 = some 0 := by
    norm_num [rsiAvgLoss, rsiLoss, ewmMean, ewmFrom, List.range_succ]
  exact (h.2 1 (2 / 15) 0 hg hl rfl).1 (by norm_num)

theorem rsi_zero_loss_not_100_counterexample :
    (rsiAvgLoss [1, 2] 14).get? 0 = some 0 ∧
    (calculate_rsi [1, 2] 14).get? 0 = some PFloat.nan ∧
    PFloat.nan ≠ PFloat.num 100 := by
  refine ⟨?_, ?_, by decide⟩
  · norm_num [rsiAvgLoss, rsiLoss, ewmMean, ewmFrom, List.range_succ]
  · norm_num [calculate_rsi, rsiAvgGain, rsiAvgLoss, rsiGain, rsiLoss,
      ewmMean, ewmFrom, List.range_succ, rsiPoint, PFloat.div, PFloat.add,
      PFloat.sub, PFloat.neg]

end TechnicalAnalysis
